import Mathlib

/-! Verification of the time-locked-wallet frontend orchestration layer
(src/App.jsx) against its natural-language specification.

The component state (React useState hooks) is modelled as the structure
AppState.  Each event handler of App.jsx is translated into a pure
function taking an environment Env (the outcomes of the external
wallet-provider and ledger interactions the handler may perform) and the
state captured at handler entry, returning the updated state together
with the ordered trace of external interactions actually performed.

JavaScript closure semantics are preserved: a React state setter updates
the store (the state carried forward), while reads of a hook value
inside a running handler always see the value captured at entry.  This
matters in handleExtendLock, where unlockTime is read after an await of
refreshOnChainData.
-/

/-- A JavaScript number as observed by the handlers: NaN, the two
infinities, or a finite value (modelled as a rational). -/
inductive JsNum where
  | nan : JsNum
  | posInf : JsNum
  | negInf : JsNum
  | fin (q : ℚ) : JsNum
deriving DecidableEq

namespace JsNum

/-- JavaScript truthiness test on a number: 0 and NaN are falsy. -/
def falsy : JsNum → Bool
  | nan => true
  | posInf => false
  | negInf => false
  | fin q => q == 0

/-- The JavaScript comparison x <= 0 (false on NaN). -/
def le0 : JsNum → Bool
  | nan => false
  | posInf => false
  | negInf => true
  | fin q => decide (q ≤ 0)

/-- Multiplication by a natural-number constant, as in JavaScript
(NaN propagates; Infinity times a positive constant stays Infinity). -/
def mulNat : JsNum → ℕ → JsNum
  | nan, _ => nan
  | posInf, k => if k = 0 then nan else posInf
  | negInf, k => if k = 0 then nan else negInf
  | fin q, k => fin (q * k)

/-- Addition of a natural-number constant, as in JavaScript. -/
def addNat : JsNum → ℕ → JsNum
  | nan, _ => nan
  | posInf, _ => posInf
  | negInf, _ => negInf
  | fin q, n => fin (q + n)

/-- Subtraction of a natural-number constant, as in JavaScript. -/
def subNat : JsNum → ℕ → JsNum
  | nan, _ => nan
  | posInf, _ => posInf
  | negInf, _ => negInf
  | fin q, n => fin (q - n)

end JsNum

instance exceptDecEq {ε α : Type} [DecidableEq ε] [DecidableEq α] :
    DecidableEq (Except ε α)
  | Except.error e, Except.error f =>
    if h : e = f then isTrue (by rw [h]) else isFalse (by simp [h])
  | Except.error _, Except.ok _ => isFalse (by simp)
  | Except.ok _, Except.error _ => isFalse (by simp)
  | Except.ok a, Except.ok b =>
    if h : a = b then isTrue (by rw [h]) else isFalse (by simp [h])

/-- A user-supplied input string, abstracted to the three observations
App.jsx makes of it: JavaScript truthiness (empty or not), the result of
the Number coercion, and the outcome of ethers parseEther on it (an
atomic-unit value, or the thrown error's display message). -/
structure JsStr where
  isEmpty : Bool
  toNumber : JsNum
  parseEtherRes : Except String ℕ
deriving DecidableEq

/-- The empty input string: falsy, Number coerces to 0, parseEther
throws on it. -/
def JsStr.emptyStr : JsStr :=
  { isEmpty := true, toNumber := JsNum.fin 0,
    parseEtherRes := Except.error "empty string" }

/-- The React component state of App.jsx (one field per useState hook
that the handlers read or write). -/
structure AppState where
  walletAddress : Option String
  network : String
  balance : String
  unlockTime : ℕ
  depositAmount : JsStr
  withdrawAmount : JsStr
  lockDurationValue : JsStr
  lockDurationUnit : String
  status : String
  lastTxHash : String
deriving DecidableEq

/-- One external interaction with the wallet provider or the ledger
contract, in the order the handler performs them. -/
inductive ExtCall where
  | requestAccounts : ExtCall
  | requestChainId : ExtCall
  | getSigner : ExtCall
  | readBalance : ExtCall
  | readUnlockTime : ExtCall
  | submitDeposit (value : ℕ) : ExtCall
  | submitWithdraw (amount : ℕ) : ExtCall
  | submitExtendLock (arg : JsNum) : ExtCall
  | txWait (hash : String) : ExtCall
deriving DecidableEq

/-- A submitted transaction: its hash and the outcome of awaiting its
confirmation (tx.wait). -/
structure Tx where
  hash : String
  waitRes : Except String Unit
deriving DecidableEq

/-- The outcomes of the external calls a handler invocation may reach.
Errors carry the display string the catch block would extract from the
thrown error. -/
structure Env where
  hasProvider : Bool
  signerRes : Except String Unit
  accountsRes : Except String (List String)
  chainIdRes : Except String String
  balanceRes : Except String ℕ
  unlockRes : Except String ℕ
  depositTx : Except String Tx
  withdrawTx : Except String Tx
  extendTx : Except String Tx
  now : ℕ
deriving DecidableEq

/-- Result of running one handler: the new component state and the
ordered trace of external interactions performed. -/
structure Run where
  state : AppState
  calls : List ExtCall
deriving DecidableEq

/-- getSignerAndContract of App.jsx: throws locally when no provider is
installed (before any external interaction); otherwise performs the
getSigner interaction, whose outcome comes from the environment. -/
def getSignerAndContract (env : Env) : List ExtCall × Except String Unit :=
  if env.hasProvider then ([ExtCall.getSigner], env.signerRes)
  else ([], Except.error "MetaMask not found")

/-- ethers formatEther: decimal string of an atomic (18-decimal) value,
trailing zeros of the fraction trimmed but at least one digit kept. -/
def formatEtherStr (n : ℕ) : String :=
  let whole := n / 10 ^ 18
  let frac := n % 10 ^ 18
  let ds := Nat.toDigits 10 frac
  let padded := List.replicate (18 - ds.length) '0' ++ ds
  let trimmed := (padded.reverse.dropWhile (fun c => c = '0')).reverse
  let fracS := if trimmed.isEmpty then "0" else String.mk trimmed
  toString whole ++ "." ++ fracS

/-- refreshOnChainData of App.jsx: reads balance, then unlock time, and
only after both reads succeed stores both (formatEther of the balance,
Number of the unlock time); any failure is caught, sets the status, and
leaves balance and unlockTime untouched. -/
def refreshOnChainData (env : Env) (s : AppState) : Run :=
  match getSignerAndContract env with
  | (calls, Except.error _) =>
      ⟨{ s with status := "Could not read contract data." }, calls⟩
  | (calls, Except.ok _) =>
      match env.balanceRes with
      | Except.error _ =>
          ⟨{ s with status := "Could not read contract data." },
            calls ++ [ExtCall.readBalance]⟩
      | Except.ok bal =>
          match env.unlockRes with
          | Except.error _ =>
              ⟨{ s with status := "Could not read contract data." },
                calls ++ [ExtCall.readBalance, ExtCall.readUnlockTime]⟩
          | Except.ok unlock =>
              ⟨{ s with balance := formatEtherStr bal, unlockTime := unlock },
                calls ++ [ExtCall.readBalance, ExtCall.readUnlockTime]⟩

/-- connectWallet of App.jsx: with no provider it alerts and returns;
otherwise it requests accounts, stores the first one, requests the chain
id, stores the network label, and refreshes the on-chain data.  Any
throw is caught and sets the status to the connect-failure message. -/
def connectWallet (env : Env) (s : AppState) : Run :=
  if env.hasProvider then
    match env.accountsRes with
    | Except.error _ =>
        ⟨{ s with status := "Failed to connect wallet." },
          [ExtCall.requestAccounts]⟩
    | Except.ok accounts =>
        let s1 := { s with walletAddress := accounts.head? }
        match env.chainIdRes with
        | Except.error _ =>
            ⟨{ s1 with status := "Failed to connect wallet." },
              [ExtCall.requestAccounts, ExtCall.requestChainId]⟩
        | Except.ok cid =>
            let s2 := { s1 with
              network := if cid = "0xaa36a7" then "Sepolia"
                         else "Chain: " ++ cid }
            let r := refreshOnChainData env s2
            ⟨r.state, [ExtCall.requestAccounts, ExtCall.requestChainId] ++ r.calls⟩
  else ⟨s, []⟩

/-- handleDeposit of App.jsx: guard on the raw input (falsy string or
Number value at most 0), then signer, then parseEther of the input, then
the deposit submission, confirmation wait, and on success a refresh. -/
def handleDeposit (env : Env) (s : AppState) : Run :=
  if s.depositAmount.isEmpty || s.depositAmount.toNumber.le0 then
    ⟨{ s with status := "Enter a positive deposit amount." }, []⟩
  else
    let s1 := { s with status := "Sending deposit transaction..." }
    match getSignerAndContract env with
    | (calls, Except.error m) =>
        ⟨{ s1 with status := "Deposit failed: " ++ m }, calls⟩
    | (calls, Except.ok _) =>
        match s.depositAmount.parseEtherRes with
        | Except.error m =>
            ⟨{ s1 with status := "Deposit failed: " ++ m }, calls⟩
        | Except.ok v =>
            let calls1 := calls ++ [ExtCall.submitDeposit v]
            match env.depositTx with
            | Except.error m =>
                ⟨{ s1 with status := "Deposit failed: " ++ m }, calls1⟩
            | Except.ok tx =>
                let s2 := { s1 with
                  lastTxHash := tx.hash
                  status := "Deposit pending... waiting for confirmation." }
                let calls2 := calls1 ++ [ExtCall.txWait tx.hash]
                match tx.waitRes with
                | Except.error m =>
                    ⟨{ s2 with status := "Deposit failed: " ++ m }, calls2⟩
                | Except.ok _ =>
                    let s3 := { s2 with status := "Deposit successful!" }
                    let r := refreshOnChainData env s3
                    ⟨r.state, calls2 ++ r.calls⟩

/-- handleWithdraw of App.jsx: same shape as handleDeposit, with the
withdraw input, messages, and submission. -/
def handleWithdraw (env : Env) (s : AppState) : Run :=
  if s.withdrawAmount.isEmpty || s.withdrawAmount.toNumber.le0 then
    ⟨{ s with status := "Enter a positive withdraw amount." }, []⟩
  else
    let s1 := { s with status := "Sending withdraw transaction..." }
    match getSignerAndContract env with
    | (calls, Except.error m) =>
        ⟨{ s1 with status := "Withdraw failed: " ++ m }, calls⟩
    | (calls, Except.ok _) =>
        match s.withdrawAmount.parseEtherRes with
        | Except.error m =>
            ⟨{ s1 with status := "Withdraw failed: " ++ m }, calls⟩
        | Except.ok v =>
            let calls1 := calls ++ [ExtCall.submitWithdraw v]
            match env.withdrawTx with
            | Except.error m =>
                ⟨{ s1 with status := "Withdraw failed: " ++ m }, calls1⟩
            | Except.ok tx =>
                let s2 := { s1 with
                  lastTxHash := tx.hash
                  status := "Withdraw pending... waiting for confirmation." }
                let calls2 := calls1 ++ [ExtCall.txWait tx.hash]
                match tx.waitRes with
                | Except.error m =>
                    ⟨{ s2 with status := "Withdraw failed: " ++ m }, calls2⟩
                | Except.ok _ =>
                    let s3 := { s2 with status := "Withdraw successful!" }
                    let r := refreshOnChainData env s3
                    ⟨r.state, calls2 ++ r.calls⟩

/-- The switch statement of handleExtendLock converting the chosen unit
to seconds (unknown units fall into the default branch, unchanged). -/
def durationSecondsOf (unit : String) (v : JsNum) : JsNum :=
  if unit = "minutes" then v.mulNat 60
  else if unit = "hours" then v.mulNat 3600
  else if unit = "days" then v.mulNat 86400
  else v

/-- The numeric factor of durationSecondsOf for a finite value. -/
def unitFactor (unit : String) : ℕ :=
  if unit = "minutes" then 60
  else if unit = "hours" then 3600
  else if unit = "days" then 86400
  else 1

/-- The submission phase of handleExtendLock (from the setStatus before
getSignerAndContract to the end of the try block): r0 is the state and
trace accumulated before the submission, additionalSeconds the computed
call argument. -/
def extendSubmit (env : Env) (r0 : Run) (additionalSeconds : JsNum) : Run :=
  let s1 := { r0.state with status := "Sending extendLock transaction..." }
  match getSignerAndContract env with
  | (calls, Except.error m) =>
      ⟨{ s1 with status := "Extend lock failed: " ++ m }, r0.calls ++ calls⟩
  | (calls, Except.ok _) =>
      let calls1 := r0.calls ++ calls ++ [ExtCall.submitExtendLock additionalSeconds]
      match env.extendTx with
      | Except.error m =>
          ⟨{ s1 with status := "Extend lock failed: " ++ m }, calls1⟩
      | Except.ok tx =>
          let s2 := { s1 with
            lastTxHash := tx.hash
            status := "Extend lock pending... waiting for confirmation." }
          let calls2 := calls1 ++ [ExtCall.txWait tx.hash]
          match tx.waitRes with
          | Except.error m =>
              ⟨{ s2 with status := "Extend lock failed: " ++ m }, calls2⟩
          | Except.ok _ =>
              let s3 := { s2 with
                status := "Lock extended successfully!"
                lockDurationValue := JsStr.emptyStr }
              let r := refreshOnChainData env s3
              ⟨r.state, calls2 ++ r.calls⟩

/-- handleExtendLock of App.jsx: guard on Number(lockDurationValue)
(falsy or at most 0), a refresh when the captured unlockTime is 0,
conversion of the duration to seconds, desiredEnd = now + duration,
additionalSeconds = desiredEnd - unlockTime where unlockTime is the
value captured at handler entry (the refresh only updates the store, not
the captured binding), local failure when additionalSeconds is at most
0, and otherwise submission of additionalSeconds. -/
def handleExtendLock (env : Env) (s : AppState) : Run :=
  let valueNum := s.lockDurationValue.toNumber
  if valueNum.falsy || valueNum.le0 then
    ⟨{ s with status := "Enter a positive lock duration." }, []⟩
  else
    let r0 : Run := if s.unlockTime = 0 then refreshOnChainData env s else ⟨s, []⟩
    let durationSeconds := durationSecondsOf s.lockDurationUnit valueNum
    let desiredEnd := durationSeconds.addNat env.now
    let additionalSeconds := desiredEnd.subNat s.unlockTime
    if additionalSeconds.le0 then
      ⟨{ r0.state with
          status := "New lock time must be later than the current unlock time." },
        r0.calls⟩
    else
      extendSubmit env r0 additionalSeconds

/-- handleAccountsChanged of App.jsx: on a non-empty account list, store
the first account and refresh the on-chain data; on an empty list, clear
only the wallet address. -/
def handleAccountsChanged (env : Env) (s : AppState) (accounts : List String) : Run :=
  match accounts with
  | a :: _ => refreshOnChainData env { s with walletAddress := some a }
  | [] => ⟨{ s with walletAddress := none }, []⟩

/-! Reduction and characterization lemmas for the handler functions. -/

theorem unitFactor_minutes : unitFactor "minutes" = 60 := rfl

theorem unitFactor_hours : unitFactor "hours" = 3600 := rfl

theorem unitFactor_days : unitFactor "days" = 86400 := rfl

theorem unitFactor_seconds : unitFactor "seconds" = 1 := rfl

theorem unitFactor_pos (u : String) : 0 < unitFactor u := by
  unfold unitFactor
  split_ifs <;> norm_num

theorem durationSecondsOf_fin (u : String) (v : ℚ) :
    durationSecondsOf u (JsNum.fin v) = JsNum.fin (v * unitFactor u) := by
  unfold durationSecondsOf unitFactor
  split_ifs <;> simp [JsNum.mulNat]

theorem JsNum.le0_fin_false {q : ℚ} (h : 0 < q) : (JsNum.fin q).le0 = false := by
  simp [JsNum.le0, not_le.mpr h]

theorem JsNum.le0_fin_true {q : ℚ} (h : q ≤ 0) : (JsNum.fin q).le0 = true := by
  simp [JsNum.le0, h]

theorem JsNum.falsy_fin_false {q : ℚ} (h : q ≠ 0) : (JsNum.fin q).falsy = false := by
  simp [JsNum.falsy, h]

theorem handleExtendLock_fin_pos (env : Env) (s : AppState) (v : ℚ)
    (hv : s.lockDurationValue.toNumber = JsNum.fin v) (hvpos : 0 < v) :
    handleExtendLock env s =
      if (v * (unitFactor s.lockDurationUnit : ℚ) + (env.now : ℚ) - (s.unlockTime : ℚ)) ≤ 0 then
        ⟨{ (if s.unlockTime = 0 then refreshOnChainData env s else ⟨s, []⟩ : Run).state with
            status := "New lock time must be later than the current unlock time." },
          (if s.unlockTime = 0 then refreshOnChainData env s else ⟨s, []⟩ : Run).calls⟩
      else
        extendSubmit env (if s.unlockTime = 0 then refreshOnChainData env s else ⟨s, []⟩)
          (JsNum.fin (v * (unitFactor s.lockDurationUnit : ℚ) + (env.now : ℚ) - (s.unlockTime : ℚ))) := by
  simp only [handleExtendLock, hv, JsNum.falsy_fin_false hvpos.ne', JsNum.le0_fin_false hvpos,
    Bool.or_self, Bool.false_eq_true, if_false, durationSecondsOf_fin, JsNum.addNat, JsNum.subNat]
  by_cases hc : (v * (unitFactor s.lockDurationUnit : ℚ) + (env.now : ℚ) - (s.unlockTime : ℚ)) ≤ 0
  · rw [JsNum.le0_fin_true hc, if_pos hc]
    simp
  · rw [JsNum.le0_fin_false (by linarith [not_le.mp hc]), if_neg hc]
    simp

theorem handleExtendLock_fail_eq (env : Env) (s : AppState) (v : ℚ)
    (hv : s.lockDurationValue.toNumber = JsNum.fin v) (hvpos : 0 < v)
    (hle : v * (unitFactor s.lockDurationUnit : ℚ) + (env.now : ℚ) - (s.unlockTime : ℚ) ≤ 0) :
    handleExtendLock env s =
      ⟨{ s with status := "New lock time must be later than the current unlock time." }, []⟩ := by
  have hf : (0 : ℚ) < (unitFactor s.lockDurationUnit : ℚ) := by
    exact_mod_cast unitFactor_pos s.lockDurationUnit
  have hU : ¬ s.unlockTime = 0 := by
    intro h0
    rw [h0] at hle
    push_cast at hle
    nlinarith [Nat.cast_nonneg (α := ℚ) env.now]
  rw [handleExtendLock_fin_pos env s v hv hvpos, if_pos hle, if_neg hU]

theorem handleExtendLock_proceed_eq (env : Env) (s : AppState) (v : ℚ)
    (hv : s.lockDurationValue.toNumber = JsNum.fin v) (hvpos : 0 < v)
    (hgt : 0 < v * (unitFactor s.lockDurationUnit : ℚ) + (env.now : ℚ) - (s.unlockTime : ℚ)) :
    handleExtendLock env s =
      extendSubmit env (if s.unlockTime = 0 then refreshOnChainData env s else ⟨s, []⟩)
        (JsNum.fin (v * (unitFactor s.lockDurationUnit : ℚ) + (env.now : ℚ) - (s.unlockTime : ℚ))) := by
  rw [handleExtendLock_fin_pos env s v hv hvpos, if_neg (not_le.mpr hgt)]

theorem extendSubmit_submits (env : Env) (r0 : Run) (a : JsNum)
    (hprov : env.hasProvider = true) (hsig : env.signerRes = Except.ok ()) :
    ExtCall.submitExtendLock a ∈ (extendSubmit env r0 a).calls := by
  simp only [extendSubmit, getSignerAndContract, hprov, if_true, hsig]
  rcases env.extendTx with m | tx
  · simp
  · rcases h : tx.waitRes with m | u <;> simp [h]

theorem extendSubmit_mem_of_mem (env : Env) (r0 : Run) (a : JsNum) (c : ExtCall)
    (h : c ∈ r0.calls) : c ∈ (extendSubmit env r0 a).calls := by
  unfold extendSubmit
  rcases getSignerAndContract env with ⟨cs, m | u⟩
  · simp [h]
  · rcases env.extendTx with m | tx
    · simp [h]
    · rcases hw : tx.waitRes with m | u <;> simp [hw, h]

theorem refresh_frame (env : Env) (s : AppState) :
    (refreshOnChainData env s).state.walletAddress = s.walletAddress ∧
    (refreshOnChainData env s).state.network = s.network ∧
    (refreshOnChainData env s).state.lastTxHash = s.lastTxHash ∧
    (refreshOnChainData env s).state.depositAmount = s.depositAmount ∧
    (refreshOnChainData env s).state.withdrawAmount = s.withdrawAmount ∧
    (refreshOnChainData env s).state.lockDurationValue = s.lockDurationValue ∧
    (refreshOnChainData env s).state.lockDurationUnit = s.lockDurationUnit := by
  unfold refreshOnChainData getSignerAndContract
  by_cases hp : env.hasProvider <;>
    rcases env.signerRes with m | u <;>
      rcases env.balanceRes with m | b <;>
        rcases env.unlockRes with m | n <;>
          simp [hp]

theorem refresh_calls_indep (env : Env) (s t : AppState) :
    (refreshOnChainData env s).calls = (refreshOnChainData env t).calls := by
  unfold refreshOnChainData getSignerAndContract
  by_cases hp : env.hasProvider <;>
    rcases env.signerRes with m | u <;>
      rcases env.balanceRes with m | b <;>
        rcases env.unlockRes with m | n <;>
          simp [hp]

theorem refresh_status_congr (env : Env) (s t : AppState) (h : s.status = t.status) :
    (refreshOnChainData env s).state.status = (refreshOnChainData env t).state.status := by
  unfold refreshOnChainData getSignerAndContract
  by_cases hp : env.hasProvider <;>
    rcases env.signerRes with m | u <;>
      rcases env.balanceRes with m | b <;>
        rcases env.unlockRes with m | n <;>
          simp [hp, h]

theorem handleDeposit_guard_fail (env : Env) (s : AppState)
    (h : s.depositAmount.isEmpty = true ∨ s.depositAmount.toNumber.le0 = true) :
    handleDeposit env s = ⟨{ s with status := "Enter a positive deposit amount." }, []⟩ := by
  unfold handleDeposit
  rcases h with h | h <;> simp [h]

theorem handleWithdraw_guard_fail (env : Env) (s : AppState)
    (h : s.withdrawAmount.isEmpty = true ∨ s.withdrawAmount.toNumber.le0 = true) :
    handleWithdraw env s = ⟨{ s with status := "Enter a positive withdraw amount." }, []⟩ := by
  unfold handleWithdraw
  rcases h with h | h <;> simp [h]

theorem handleDeposit_getSigner_mem (env : Env) (s : AppState)
    (he : s.depositAmount.isEmpty = false) (hle : s.depositAmount.toNumber.le0 = false)
    (hprov : env.hasProvider = true) :
    ExtCall.getSigner ∈ (handleDeposit env s).calls := by
  simp only [handleDeposit, he, hle, Bool.or_self, Bool.false_eq_true, if_false,
    getSignerAndContract, hprov, if_true]
  rcases env.signerRes with m | u
  · simp
  · rcases hp : s.depositAmount.parseEtherRes with m | v
    · simp [hp]
    · simp only [hp]
      rcases env.depositTx with m | tx
      · simp
      · rcases hw : tx.waitRes with m | u <;> simp [hw]

theorem handleWithdraw_getSigner_mem (env : Env) (s : AppState)
    (he : s.withdrawAmount.isEmpty = false) (hle : s.withdrawAmount.toNumber.le0 = false)
    (hprov : env.hasProvider = true) :
    ExtCall.getSigner ∈ (handleWithdraw env s).calls := by
  simp only [handleWithdraw, he, hle, Bool.or_self, Bool.false_eq_true, if_false,
    getSignerAndContract, hprov, if_true]
  rcases env.signerRes with m | u
  · simp
  · rcases hp : s.withdrawAmount.parseEtherRes with m | v
    · simp [hp]
    · simp only [hp]
      rcases env.withdrawTx with m | tx
      · simp
      · rcases hw : tx.waitRes with m | u <;> simp [hw]

theorem handleWithdraw_state_walletAddress (env : Env) (s : AppState) :
    (handleWithdraw env s).state.walletAddress = s.walletAddress := by
  unfold handleWithdraw getSignerAndContract
  by_cases hg : (s.withdrawAmount.isEmpty || s.withdrawAmount.toNumber.le0) = true
  · simp [hg]
  · rw [Bool.not_eq_true] at hg
    by_cases hp : env.hasProvider
    · simp only [hg, Bool.false_eq_true, if_false, hp, if_true]
      rcases env.signerRes with m | u
      · simp
      · rcases hpe : s.withdrawAmount.parseEtherRes with m | v
        · simp [hpe]
        · simp only [hpe]
          rcases env.withdrawTx with m | tx
          · simp
          · rcases hw : tx.waitRes with m | u2
            · simp [hw]
            · simp only [hw]
              exact (refresh_frame env _).1
    · simp [hg, hp]

theorem handleWithdraw_calls_indep (env : Env) (s : AppState) (w : Option String) :
    (handleWithdraw env { s with walletAddress := w }).calls = (handleWithdraw env s).calls := by
  unfold handleWithdraw getSignerAndContract
  by_cases hg : (s.withdrawAmount.isEmpty || s.withdrawAmount.toNumber.le0) = true
  · simp [hg]
  · rw [Bool.not_eq_true] at hg
    by_cases hp : env.hasProvider
    · simp only [hg, Bool.false_eq_true, if_false, hp, if_true]
      rcases env.signerRes with m | u
      · simp
      · rcases hpe : s.withdrawAmount.parseEtherRes with m | v
        · simp [hpe]
        · simp only [hpe]
          rcases env.withdrawTx with m | tx
          · simp
          · rcases hw : tx.waitRes with m | u2
            · simp [hw]
            · simp only [hw]
              congr 1
              exact refresh_calls_indep env _ _
    · simp [hg, hp]

theorem handleWithdraw_status_indep (env : Env) (s : AppState) (w : Option String) :
    (handleWithdraw env { s with walletAddress := w }).state.status =
      (handleWithdraw env s).state.status := by
  unfold handleWithdraw getSignerAndContract
  by_cases hg : (s.withdrawAmount.isEmpty || s.withdrawAmount.toNumber.le0) = true
  · simp [hg]
  · rw [Bool.not_eq_true] at hg
    by_cases hp : env.hasProvider
    · simp only [hg, Bool.false_eq_true, if_false, hp, if_true]
      rcases env.signerRes with m | u
      · simp
      · rcases hpe : s.withdrawAmount.parseEtherRes with m | v
        · simp [hpe]
        · simp only [hpe]
          rcases env.withdrawTx with m | tx
          · simp
          · rcases hw : tx.waitRes with m | u2
            · simp [hw]
            · simp only [hw]
              exact refresh_status_congr env _ _ rfl
    · simp [hg, hp]

theorem handleExtendLock_guard_fail (env : Env) (s : AppState)
    (h : s.lockDurationValue.toNumber.falsy = true ∨ s.lockDurationValue.toNumber.le0 = true) :
    handleExtendLock env s = ⟨{ s with status := "Enter a positive lock duration." }, []⟩ := by
  unfold handleExtendLock
  rcases h with h | h <;> simp [h]

theorem connectWallet_requests (env : Env) (s : AppState) (hprov : env.hasProvider = true) :
    ExtCall.requestAccounts ∈ (connectWallet env s).calls := by
  unfold connectWallet
  simp only [hprov, if_true]
  rcases env.accountsRes with m | accts
  · simp
  · rcases env.chainIdRes with m | cid <;> simp

theorem connectWallet_sets_address (env : Env) (s : AppState) (accts : List String)
    (hprov : env.hasProvider = true) (hacc : env.accountsRes = Except.ok accts) :
    (connectWallet env s).state.walletAddress = accts.head? := by
  unfold connectWallet
  simp only [hprov, if_true, hacc]
  rcases env.chainIdRes with m | cid
  · simp
  · exact (refresh_frame env _).1

theorem connectWallet_chain_fail_eq (env : Env) (s : AppState) (a : String)
    (rest : List String) (m : String)
    (hprov : env.hasProvider = true)
    (hacc : env.accountsRes = Except.ok (a :: rest))
    (hch : env.chainIdRes = Except.error m) :
    connectWallet env s =
      ⟨{ s with walletAddress := some a, status := "Failed to connect wallet." },
        [ExtCall.requestAccounts, ExtCall.requestChainId]⟩ := by
  unfold connectWallet
  simp [hprov, hacc, hch]

/-! Concrete fixtures for closed evaluations. -/

def baseState : AppState :=
  { walletAddress := some "0xowner", network := "Sepolia", balance := "0.0", unlockTime := 100,
    depositAmount := JsStr.emptyStr, withdrawAmount := JsStr.emptyStr,
    lockDurationValue := JsStr.emptyStr, lockDurationUnit := "minutes",
    status := "", lastTxHash := "" }

def baseEnv : Env :=
  { hasProvider := true, signerRes := Except.ok (), accountsRes := Except.ok ["0xother"],
    chainIdRes := Except.ok "0xaa36a7", balanceRes := Except.ok 0, unlockRes := Except.ok 5000,
    depositTx := Except.ok ⟨"0xdtx", Except.ok ()⟩, withdrawTx := Except.ok ⟨"0xwtx", Except.ok ()⟩,
    extendTx := Except.ok ⟨"0xetx", Except.ok ()⟩, now := 1000 }

/-! Theorems settling the specification claims. -/

/-- C1: with a finite positive duration value, a provider and a working
signer, the extend-lock operation submits exactly when the desired end
D = now + durationSeconds exceeds the cached unlock timestamp U, with
submitted argument D - U; when D is at most U it ends locally with the
NonIncreasingLock status and performs no external call at all. -/
theorem extendLock_monotonic_invariant (env : Env) (s : AppState) (v D : ℚ)
    (hv : s.lockDurationValue.toNumber = JsNum.fin v) (hvpos : 0 < v)
    (hprov : env.hasProvider = true) (hsig : env.signerRes = Except.ok ())
    (hD : D = (env.now : ℚ) + v * (unitFactor s.lockDurationUnit : ℚ)) :
    ((s.unlockTime : ℚ) < D →
      ExtCall.submitExtendLock (JsNum.fin (D - (s.unlockTime : ℚ))) ∈
        (handleExtendLock env s).calls) ∧
    (D ≤ (s.unlockTime : ℚ) →
      (handleExtendLock env s).state.status =
          "New lock time must be later than the current unlock time." ∧
        (handleExtendLock env s).calls = []) := by
  constructor
  · intro hlt
    have harg : v * (unitFactor s.lockDurationUnit : ℚ) + (env.now : ℚ) - (s.unlockTime : ℚ)
        = D - (s.unlockTime : ℚ) := by rw [hD]; ring
    have h := handleExtendLock_proceed_eq env s v hv hvpos (by rw [harg]; linarith)
    rw [harg] at h
    rw [h]
    exact extendSubmit_submits _ _ _ hprov hsig
  · intro hle
    have h := handleExtendLock_fail_eq env s v hv hvpos (by rw [hD] at hle; linarith)
    rw [h]
    exact ⟨rfl, rfl⟩

def c1State : AppState :=
  { baseState with
    unlockTime := 10
    lockDurationValue := ⟨false, JsNum.fin 60, Except.error "x"⟩
    lockDurationUnit := "seconds" }

/-- C1 witness: unlockTime 10, now 0, extend by 60 seconds: D = 60 > 10,
so the operation submits additionalSeconds = 50. -/
theorem extendLock_monotonic_invariant_witness :
    ExtCall.submitExtendLock (JsNum.fin 50) ∈
      (handleExtendLock { baseEnv with now := 0 } c1State).calls := by
  have h := (extendLock_monotonic_invariant { baseEnv with now := 0 } c1State 60 60
      rfl (by norm_num) rfl rfl
      (by rw [show c1State.lockDurationUnit = "seconds" from rfl, unitFactor_seconds]
          norm_num)).1
    (by rw [show c1State.unlockTime = 10 from rfl]; norm_num)
  rwa [show ((60 : ℚ) - (c1State.unlockTime : ℚ)) = 50 from by
      rw [show c1State.unlockTime = 10 from rfl]; norm_num] at h

def c2State : AppState :=
  { baseState with
    unlockTime := 0
    lockDurationValue := ⟨false, JsNum.fin 1, Except.error "x"⟩
    lockDurationUnit := "seconds" }

/-- C2: code bug. With the cache never populated (cached unlockTime 0),
the handler does refresh from the ledger (readUnlockTime occurs and the
fresh value is 5000), but additionalSeconds is computed from the stale
captured value 0: with now = 1000 and a 1-second duration it submits
1001, although desiredEnd 1001 is not later than the fresh unlock time
5000, which per the claim should have failed locally. -/
theorem extendLock_stale_cache_bug :
    ExtCall.readUnlockTime ∈ (handleExtendLock baseEnv c2State).calls ∧
    ExtCall.submitExtendLock (JsNum.fin 1001) ∈ (handleExtendLock baseEnv c2State).calls ∧
    baseEnv.unlockRes = Except.ok 5000 ∧
    (baseEnv.now : ℚ) + 1 * (unitFactor c2State.lockDurationUnit : ℚ) - (5000 : ℚ) ≤ 0 := by
  have harg : (1 : ℚ) * (unitFactor c2State.lockDurationUnit : ℚ) + (baseEnv.now : ℚ)
      - (c2State.unlockTime : ℚ) = 1001 := by
    rw [show c2State.lockDurationUnit = "seconds" from rfl, unitFactor_seconds,
      show baseEnv.now = 1000 from rfl, show c2State.unlockTime = 0 from rfl]
    norm_num
  have h := handleExtendLock_proceed_eq baseEnv c2State 1 rfl (by norm_num)
    (by rw [harg]; norm_num)
  rw [harg] at h
  rw [h]
  refine ⟨?_, ?_, rfl, ?_⟩
  · exact extendSubmit_mem_of_mem _ _ _ _ (by decide)
  · exact extendSubmit_submits _ _ _ rfl rfl
  · rw [show c2State.lockDurationUnit = "seconds" from rfl, unitFactor_seconds,
      show baseEnv.now = 1000 from rfl]
    norm_num

def c3State : AppState :=
  { baseState with depositAmount := ⟨false, JsNum.nan, Except.error "invalid value"⟩ }

/-- C3 counterexample: a non-numeric deposit input (Number gives NaN,
parseEther throws) is not caught by the local guard, because NaN is not
at most 0 in JavaScript: the handler reaches the signer and then fails
with the thrown parse error, not with the local InvalidAmount status. -/
theorem deposit_nan_reaches_signer :
    (handleDeposit baseEnv c3State).calls = [ExtCall.getSigner] ∧
    (handleDeposit baseEnv c3State).state.status = "Deposit failed: invalid value" :=
  ⟨rfl, rfl⟩

/-- C3 amended: empty or numerically non-positive inputs are rejected
locally with the InvalidAmount status and no external interaction;
non-numeric (NaN) and Infinity inputs pass the guard and reach the
signer, so they do not end in the local InvalidAmount failure. -/
theorem deposit_withdraw_validation (env : Env) (s : AppState) :
    ((s.depositAmount.isEmpty = true ∨ s.depositAmount.toNumber.le0 = true) →
      handleDeposit env s = ⟨{ s with status := "Enter a positive deposit amount." }, []⟩) ∧
    ((s.withdrawAmount.isEmpty = true ∨ s.withdrawAmount.toNumber.le0 = true) →
      handleWithdraw env s = ⟨{ s with status := "Enter a positive withdraw amount." }, []⟩) ∧
    (env.hasProvider = true → s.depositAmount.isEmpty = false →
      (s.depositAmount.toNumber = JsNum.nan ∨ s.depositAmount.toNumber = JsNum.posInf) →
      ExtCall.getSigner ∈ (handleDeposit env s).calls) ∧
    (env.hasProvider = true → s.withdrawAmount.isEmpty = false →
      (s.withdrawAmount.toNumber = JsNum.nan ∨ s.withdrawAmount.toNumber = JsNum.posInf) →
      ExtCall.getSigner ∈ (handleWithdraw env s).calls) := by
  refine ⟨handleDeposit_guard_fail env s, handleWithdraw_guard_fail env s, ?_, ?_⟩
  · intro hp he hn
    refine handleDeposit_getSigner_mem env s he ?_ hp
    rcases hn with hn | hn <;> rw [hn] <;> rfl
  · intro hp he hn
    refine handleWithdraw_getSigner_mem env s he ?_ hp
    rcases hn with hn | hn <;> rw [hn] <;> rfl

def c3EmptyState : AppState := { baseState with depositAmount := JsStr.emptyStr }

/-- C3 witness: the empty deposit input is rejected locally with no
external call, and a NaN deposit input reaches the signer. -/
theorem deposit_withdraw_validation_witness :
    handleDeposit baseEnv c3EmptyState =
      ⟨{ c3EmptyState with status := "Enter a positive deposit amount." }, []⟩ ∧
    ExtCall.getSigner ∈ (handleDeposit baseEnv c3State).calls :=
  ⟨(deposit_withdraw_validation baseEnv c3EmptyState).1 (Or.inl rfl),
   (deposit_withdraw_validation baseEnv c3State).2.2.1 rfl rfl (Or.inl rfl)⟩

def c4State : AppState :=
  { baseState with
    walletAddress := none
    withdrawAmount := ⟨false, JsNum.fin 1, Except.ok 1000000000000000000⟩ }

/-- C4 counterexample: with a provider installed, a withdraw submitted
while no wallet is connected (walletAddress cleared) is not rejected
locally: the handler reaches the signer and submits the withdrawal
exactly as when connected. -/
theorem withdraw_disconnected_not_rejected :
    c4State.walletAddress = none ∧
    ExtCall.getSigner ∈ (handleWithdraw baseEnv c4State).calls ∧
    ExtCall.submitWithdraw 1000000000000000000 ∈ (handleWithdraw baseEnv c4State).calls := by
  refine ⟨rfl, ?_, ?_⟩ <;> decide

/-- C4 amended: handleWithdraw never consults the session state: its
trace and status are independent of the wallet address, which it passes
through unchanged; the only local pre-network failure apart from the
amount guard is a missing provider, reported as a MetaMask-not-found
failure distinct from a ledger-side revert. -/
theorem withdraw_ignores_session (env : Env) (s : AppState) (w : Option String) :
    (handleWithdraw env s).state.walletAddress = s.walletAddress ∧
    (handleWithdraw env { s with walletAddress := w }).calls = (handleWithdraw env s).calls ∧
    (handleWithdraw env { s with walletAddress := w }).state.status =
      (handleWithdraw env s).state.status ∧
    (env.hasProvider = false → s.withdrawAmount.isEmpty = false →
      s.withdrawAmount.toNumber.le0 = false →
      (handleWithdraw env s).calls = [] ∧
      (handleWithdraw env s).state.status = "Withdraw failed: MetaMask not found") := by
  refine ⟨handleWithdraw_state_walletAddress env s, handleWithdraw_calls_indep env s w,
    handleWithdraw_status_indep env s w, ?_⟩
  intro hp he hle
  have h : handleWithdraw env s =
      ⟨{ s with status := "Withdraw failed: MetaMask not found" }, []⟩ := by
    unfold handleWithdraw getSignerAndContract
    simp [he, hle, hp]
  rw [h]
  exact ⟨rfl, rfl⟩

def c4NoProvEnv : Env := { baseEnv with hasProvider := false }

def c4ConnState : AppState := { c4State with walletAddress := some "0xowner" }

/-- C4 witness: with no provider the withdraw fails locally before any
external call with the MetaMask-not-found status, and the trace is the
same whether the session address is present or cleared. -/
theorem withdraw_ignores_session_witness :
    ((handleWithdraw baseEnv { c4ConnState with walletAddress := none }).calls =
      (handleWithdraw baseEnv c4ConnState).calls) ∧
    (handleWithdraw c4NoProvEnv c4ConnState).calls = [] ∧
    (handleWithdraw c4NoProvEnv c4ConnState).state.status =
      "Withdraw failed: MetaMask not found" :=
  ⟨(withdraw_ignores_session baseEnv c4ConnState none).2.1,
   (withdraw_ignores_session c4NoProvEnv c4ConnState none).2.2.2 rfl rfl rfl⟩

def c5State : AppState :=
  { baseState with lockDurationValue := ⟨false, JsNum.posInf, Except.error "x"⟩ }

/-- C5 counterexample: the non-finite duration Infinity is not rejected:
it passes the guard (Infinity is neither falsy nor at most 0), the
handler proceeds and submits Infinity as the extend argument, and the
status is not the local InvalidDuration message. -/
theorem extendLock_infinity_not_rejected :
    ExtCall.submitExtendLock JsNum.posInf ∈ (handleExtendLock baseEnv c5State).calls ∧
    (handleExtendLock baseEnv c5State).state.status ≠ "Enter a positive lock duration." := by
  refine ⟨?_, ?_⟩ <;> decide

/-- C5 amended: the duration conversion multiplies a positive finite
value by 60, 3600, 86400 for minutes, hours, days and leaves seconds
unchanged; the operation fails locally with the InvalidDuration status
when the value is at most 0 or NaN — but Infinity is not rejected. -/
theorem toSeconds_conversion (v : ℚ) (env : Env) (s : AppState) :
    (0 < v →
      durationSecondsOf "minutes" (JsNum.fin v) = JsNum.fin (v * 60) ∧
      durationSecondsOf "hours" (JsNum.fin v) = JsNum.fin (v * 3600) ∧
      durationSecondsOf "days" (JsNum.fin v) = JsNum.fin (v * 86400) ∧
      durationSecondsOf "seconds" (JsNum.fin v) = JsNum.fin v) ∧
    ((s.lockDurationValue.toNumber = JsNum.nan ∨
        (∃ q : ℚ, s.lockDurationValue.toNumber = JsNum.fin q ∧ q ≤ 0) ∨
        s.lockDurationValue.toNumber = JsNum.negInf) →
      handleExtendLock env s = ⟨{ s with status := "Enter a positive lock duration." }, []⟩) := by
  constructor
  · intro _
    refine ⟨?_, ?_, ?_, ?_⟩
    · rw [durationSecondsOf_fin, unitFactor_minutes]
      exact congrArg JsNum.fin (by push_cast; ring)
    · rw [durationSecondsOf_fin, unitFactor_hours]
      exact congrArg JsNum.fin (by push_cast; ring)
    · rw [durationSecondsOf_fin, unitFactor_days]
      exact congrArg JsNum.fin (by push_cast; ring)
    · rw [durationSecondsOf_fin, unitFactor_seconds]
      exact congrArg JsNum.fin (by push_cast; ring)
  · intro h
    apply handleExtendLock_guard_fail
    rcases h with h | ⟨q, hq, hq0⟩ | h
    · exact Or.inl (by rw [h]; rfl)
    · exact Or.inr (by rw [hq]; exact JsNum.le0_fin_true hq0)
    · exact Or.inr (by rw [h]; rfl)

def c5NanState : AppState :=
  { baseState with lockDurationValue := ⟨false, JsNum.nan, Except.error "x"⟩ }

/-- C5 witness: the conversions at v = 2, and a NaN duration failing
locally with the InvalidDuration status. -/
theorem toSeconds_conversion_witness :
    (durationSecondsOf "minutes" (JsNum.fin 2) = JsNum.fin (2 * 60) ∧
      durationSecondsOf "hours" (JsNum.fin 2) = JsNum.fin (2 * 3600) ∧
      durationSecondsOf "days" (JsNum.fin 2) = JsNum.fin (2 * 86400) ∧
      durationSecondsOf "seconds" (JsNum.fin 2) = JsNum.fin 2) ∧
    handleExtendLock baseEnv c5NanState =
      ⟨{ c5NanState with status := "Enter a positive lock duration." }, []⟩ :=
  ⟨(toSeconds_conversion 2 baseEnv c5NanState).1 (by norm_num),
   (toSeconds_conversion 2 baseEnv c5NanState).2 (Or.inl rfl)⟩

/-- Modelled from the spec: the Unit Converter's toAtomic, parsing a
positive decimal amount into its 18-decimal atomic integer
representation, failing (none) for non-positive input or input not
exactly representable in atomic units.  The ethers parseEther source is
not part of this repository. -/
def toAtomic (x : ℚ) : Option ℕ :=
  if 0 < x ∧ (x * 10 ^ 18).den = 1 then some (x * 10 ^ 18).num.toNat else none

/-- Modelled from the spec: the Unit Converter's fromAtomic, the inverse
decimal rendering of an atomic value.  The ethers formatEther source is
not part of this repository. -/
def fromAtomic (n : ℕ) : ℚ := (n : ℚ) / 10 ^ 18

/-- C6: round-trip law — for every positive decimal amount exactly
representable in atomic units, converting to atomic units and back
yields the amount again. -/
theorem fromAtomic_toAtomic_roundtrip (x : ℚ) (hpos : 0 < x)
    (hrep : (x * 10 ^ 18).den = 1) :
    (toAtomic x).map fromAtomic = some x := by
  unfold toAtomic fromAtomic
  rw [if_pos ⟨hpos, hrep⟩]
  have h1 : ((x * 10 ^ 18).num : ℚ) = x * 10 ^ 18 := (Rat.den_eq_one_iff _).mp hrep
  have h2 : (0 : ℤ) ≤ (x * 10 ^ 18).num := by
    rw [Rat.num_nonneg]
    positivity
  have h3 : (((x * 10 ^ 18).num.toNat : ℕ) : ℚ) = ((x * 10 ^ 18).num : ℚ) := by
    exact_mod_cast congrArg (Int.cast : ℤ → ℚ) (Int.toNat_of_nonneg h2)
  simp only [Option.map_some']
  congr 1
  rw [h3, h1]
  field_simp

/-- C6 witness: 0.01 converts to 10^16 atomic units and back to 0.01. -/
theorem fromAtomic_toAtomic_roundtrip_witness :
    (0 : ℚ) < 1 / 100 ∧ (toAtomic (1 / 100)).map fromAtomic = some (1 / 100) :=
  ⟨by norm_num,
   fromAtomic_toAtomic_roundtrip (1 / 100) (by norm_num) (by
     have h : (1 / 100 : ℚ) * 10 ^ 18 = ((10 ^ 16 : ℕ) : ℚ) := by push_cast; norm_num
     rw [h, Rat.den_natCast])⟩

/-- C7: when reading the balance or the unlock time fails, the refresh
sets the sync-failure status and the previous snapshot (balance and
unlock time) is retained completely unchanged — never one field updated
with the other stale. -/
theorem refresh_failure_retains_snapshot (env : Env) (s : AppState)
    (h : (∃ e, env.balanceRes = Except.error e) ∨ (∃ e, env.unlockRes = Except.error e)) :
    (refreshOnChainData env s).state.balance = s.balance ∧
    (refreshOnChainData env s).state.unlockTime = s.unlockTime ∧
    (refreshOnChainData env s).state.status = "Could not read contract data." := by
  unfold refreshOnChainData getSignerAndContract
  rcases h with ⟨e, he⟩ | ⟨e, he⟩ <;>
    by_cases hp : env.hasProvider <;>
      rcases env.signerRes with m | u <;>
        rcases hb : env.balanceRes with m | b <;>
          simp_all

def c7Env : Env := { baseEnv with balanceRes := Except.error "connection lost" }

/-- C7 witness: a failed balance read leaves the snapshot of baseState
unchanged and sets the sync-failure status. -/
theorem refresh_failure_retains_snapshot_witness :
    (refreshOnChainData c7Env baseState).state.balance = baseState.balance ∧
    (refreshOnChainData c7Env baseState).state.unlockTime = baseState.unlockTime ∧
    (refreshOnChainData c7Env baseState).state.status = "Could not read contract data." :=
  refresh_failure_retains_snapshot c7Env baseState (Or.inl ⟨"connection lost", rfl⟩)

/-- C8 counterexample: connect invoked while a wallet is already
connected is not a no-op: the account and chain-id requests are issued
again and the session address is overwritten with the fresh result. -/
theorem connect_when_connected_not_noop :
    baseState.walletAddress = some "0xowner" ∧
    ExtCall.requestAccounts ∈ (connectWallet baseEnv baseState).calls ∧
    ExtCall.requestChainId ∈ (connectWallet baseEnv baseState).calls ∧
    (connectWallet baseEnv baseState).state.walletAddress = some "0xother" := by
  refine ⟨rfl, ?_, ?_, rfl⟩ <;> decide

/-- C8 amended: connectWallet ignores the current session state: whenever
a provider is present it issues the accounts request, and on a
successful accounts response it overwrites the session address with the
first returned account, even if one was already connected. -/
theorem connectWallet_always_requests (env : Env) (s : AppState)
    (hprov : env.hasProvider = true) :
    ExtCall.requestAccounts ∈ (connectWallet env s).calls ∧
    (∀ accts, env.accountsRes = Except.ok accts →
      (connectWallet env s).state.walletAddress = accts.head?) := by
  refine ⟨connectWallet_requests env s hprov, ?_⟩
  intro accts hacc
  exact connectWallet_sets_address env s accts hprov hacc

/-- C8 witness: with a provider present and the accounts request
returning 0xother, connect issues the request and stores 0xother, for a
state that was already connected as 0xowner. -/
theorem connectWallet_always_requests_witness :
    ExtCall.requestAccounts ∈ (connectWallet baseEnv baseState).calls ∧
    (connectWallet baseEnv baseState).state.walletAddress = some "0xother" := by
  have h := connectWallet_always_requests baseEnv baseState rfl
  exact ⟨h.1, h.2 ["0xother"] rfl⟩

/-- C9: the accounts-changed handler on an empty account list clears
only the wallet address; balance, unlock time, status and last
transaction hash all keep their previous values, with no external
call. -/
theorem accountsChanged_empty_clears_only_address (env : Env) (s : AppState) :
    handleAccountsChanged env s [] = ⟨{ s with walletAddress := none }, []⟩ := rfl

/-- C10: when the accounts request succeeds but the chain-id query
throws, connectWallet leaves the wallet address set to the newly
returned account while the status reports the connect failure — the
pre-call session state is not restored. -/
theorem connectWallet_not_atomic_on_chain_failure (env : Env) (s : AppState)
    (a : String) (rest : List String) (m : String)
    (hprov : env.hasProvider = true)
    (hacc : env.accountsRes = Except.ok (a :: rest))
    (hch : env.chainIdRes = Except.error m) :
    (connectWallet env s).state.walletAddress = some a ∧
    (connectWallet env s).state.status = "Failed to connect wallet." := by
  rw [connectWallet_chain_fail_eq env s a rest m hprov hacc hch]
  exact ⟨rfl, rfl⟩

def c10Env : Env := { baseEnv with chainIdRes := Except.error "network error" }

/-- C10 witness: accounts request returns 0xother, the chain-id query
fails: the address stays 0xother and the status is the connect-failure
message. -/
theorem connectWallet_not_atomic_witness :
    (connectWallet c10Env baseState).state.walletAddress = some "0xother" ∧
    (connectWallet c10Env baseState).state.status = "Failed to connect wallet." :=
  connectWallet_not_atomic_on_chain_failure c10Env baseState "0xother" [] "network error"
    rfl rfl rfl
